import Mathlib

/-!
Verification of the retrieval-augmented WhatsApp relay.

This development shallowly embeds the core of the repository
(`src/backend/rag/pharsingfile.mjs`, `src/backend/rag/qdrant.mjs`,
`src/backend/gemini.mjs`, `src/backend/server.mjs`): the text chunker, the
vector-index insert/search wrappers, the ingestion pipeline, the reply
composer and the conversation lifecycle.  Strings are modelled as `List Char`
(or Lean `String`, which is backed by `List Char`); timestamps as `Nat`
milliseconds; JavaScript numeric indices as `Int` where negative values can
flow (JS `slice` accepts negative indices).  External collaborators (the
Qdrant store, the embedding provider, the Gemini model, Twilio) are modelled
by explicit outcome parameters or by functions implementing their documented
semantics.
-/

set_option maxHeartbeats 1000000
set_option maxRecDepth 8000

/-! ### JavaScript string primitives

Models of the JS string operations used by the sources: `slice`,
`substring`, `lastIndexOf` and `trim`, over `List Char`. -/

/-- JS index resolution for `slice`: a negative index counts from the end,
then the result is clamped to `[0, len]`. -/
def jsSliceIdx (len i : Int) : Int :=
  if i < 0 then max (len + i) 0 else min i len

/-- JS `s.slice(a, b)`: negative indices count from the end, then both are
clamped to `[0, len]`; returns the characters in `[a', b')`. -/
def jsSlice (s : List Char) (a b : Int) : List Char :=
  (s.take (jsSliceIdx s.length b).toNat).drop (jsSliceIdx s.length a).toNat

/-- JS `s.slice(a)` (one-argument slice): as `s.slice(a, s.length)`. -/
def jsSliceFrom (s : List Char) (a : Int) : List Char :=
  s.drop (jsSliceIdx s.length a).toNat

/-- JS index resolution for `substring`: clamp to `[0, len]`. -/
def jsSubstrIdx (len i : Int) : Int :=
  min (max i 0) len

/-- JS `s.substring(a, b)`: both indices clamped to `[0, len]` and swapped
if out of order. -/
def jsSubstr (s : List Char) (a b : Int) : List Char :=
  (s.take (max (jsSubstrIdx s.length a) (jsSubstrIdx s.length b)).toNat).drop
    (min (jsSubstrIdx s.length a) (jsSubstrIdx s.length b)).toNat

/-- JS `s.lastIndexOf(pat)`: the greatest index at which `pat` occurs in
`s`, or `-1` when it does not occur. -/
def jsLastIndexOf (s pat : List Char) : Int :=
  match ((List.range (s.length + 1)).filter
      (fun i => pat.isPrefixOf (s.drop i))).getLast? with
  | some i => (i : Int)
  | none => -1

/-- The whitespace characters relevant to JS `trim` for the strings this
system manipulates. -/
def jsIsWhitespace (c : Char) : Bool :=
  c = ' ' || c = '\t' || c = '\n' || c = '\r'

/-- JS `s.trim()`: strips leading and trailing whitespace. -/
def jsTrim (s : List Char) : List Char :=
  (((s.dropWhile jsIsWhitespace).reverse).dropWhile jsIsWhitespace).reverse

/-- JS `s.includes(pat)`: substring containment. -/
def jsIncludes (s pat : List Char) : Bool :=
  (List.range (s.length + 1)).any (fun i => pat.isPrefixOf (s.drop i))

/-! ### The chunker (`splitIntoChunks`, `src/unnamed/part_008` lines 28-74)

`splitIntoChunks(text, chunkSize = 500, overlap = 100)` walks the text in
windows of `chunkSize`, moves the cut to the rightmost sentence end found in
the last 100 characters of the candidate window, pushes the window, restarts
`overlap` earlier, and when the next window would overrun the end pushes the
remaining tail as one final chunk and stops.  The `while` loop is embedded
with a fuel parameter; `text.length + 1` fuel is shown sufficient for the
parameters the repository uses. -/

/-- The rightmost sentence-terminating punctuation in `lastPart`: the `Math.max`
of the six `lastIndexOf` calls in the source. -/
def sentenceEndIdx (lastPart : List Char) : Int :=
  max (max (max (jsLastIndexOf lastPart ['.', ' '])
                (jsLastIndexOf lastPart ['.', '\n']))
           (max (jsLastIndexOf lastPart ['?', ' '])
                (jsLastIndexOf lastPart ['?', '\n'])))
      (max (jsLastIndexOf lastPart ['!', ' '])
           (jsLastIndexOf lastPart ['!', '\n']))

/-- One candidate window end: `min(startIndex + chunkSize, text.length)`
adjusted backwards to the rightmost sentence end among the last 100
characters when the window does not already reach the end of the text. -/
def windowEnd (text : List Char) (chunkSize startIndex : Int) : Int :=
  let endIndex0 : Int := min (startIndex + chunkSize) (text.length : Int)
  if endIndex0 < (text.length : Int) then
    let lastPart := jsSubstr text (endIndex0 - 100) endIndex0
    let sEnd := sentenceEndIdx lastPart
    if sEnd = -1 then endIndex0 else endIndex0 - 100 + sEnd + 2
  else endIndex0

/-- The `while (startIndex < text.length)` loop of `splitIntoChunks`:
push the current window, restart `overlap` earlier, and if the next window
would overrun the end of the text push the remaining tail (`text.slice`
with a possibly negative index, as in the source) and stop. -/
def splitLoop (text : List Char) (chunkSize overlap : Int) :
    Nat → Int → List (List Char) → List (List Char)
  | 0, _, chunks => chunks
  | fuel + 1, startIndex, chunks =>
    if startIndex < (text.length : Int) then
      if windowEnd text chunkSize startIndex - overlap + chunkSize >
            (text.length : Int) ∧
          windowEnd text chunkSize startIndex - overlap <
            (text.length : Int) then
        chunks ++ [jsSlice text startIndex (windowEnd text chunkSize startIndex)]
          ++ [jsSliceFrom text (windowEnd text chunkSize startIndex - overlap)]
      else
        splitLoop text chunkSize overlap fuel
          (windowEnd text chunkSize startIndex - overlap)
          (chunks ++ [jsSlice text startIndex (windowEnd text chunkSize startIndex)])
    else chunks

/-- `splitIntoChunks(text, chunkSize, overlap)`: empty input yields no
chunks; otherwise run the window loop from index 0. -/
def splitIntoChunks (text : List Char) (chunkSize : Int := 500)
    (overlap : Int := 100) : List (List Char) :=
  if text.length = 0 then []
  else splitLoop text chunkSize overlap (text.length + 1) 0 []

/-- Reassembly of a chunk list produced with overlap 100: the first chunk
followed by every later chunk with its first 100 (overlapped) characters
removed.  A chunk list covers a text with no gaps exactly when this
reassembly returns the text. -/
def reassemble : List (List Char) → List Char
  | [] => []
  | c :: rest => c ++ (rest.map (List.drop 100)).flatten

-- Sanity checks of the embedding against the JS semantics on small inputs.
example : splitIntoChunks ['a', 'b'] 500 100 = [['a', 'b'], ['a', 'b']] := by
  decide

example : splitIntoChunks [] 500 100 = [] := by decide

/-! ### Chunker lemmas -/

theorem jsSliceIdx_of_nonneg (len i : Int) (h0 : 0 ≤ i) (h1 : i ≤ len) :
    jsSliceIdx len i = i := by
  unfold jsSliceIdx
  rw [if_neg (by omega)]
  omega

theorem jsSlice_eq (s : List Char) (a b : Int) (ha : 0 ≤ a)
    (ha' : a ≤ (s.length : Int)) (hb : 0 ≤ b) (hb' : b ≤ (s.length : Int)) :
    jsSlice s a b = (s.take b.toNat).drop a.toNat := by
  unfold jsSlice
  rw [jsSliceIdx_of_nonneg _ _ ha ha', jsSliceIdx_of_nonneg _ _ hb hb']

theorem jsSubstr_eq (s : List Char) (a b : Int) (ha : 0 ≤ a)
    (hab : a ≤ b) (hb' : b ≤ (s.length : Int)) :
    jsSubstr s a b = (s.take b.toNat).drop a.toNat := by
  unfold jsSubstr jsSubstrIdx
  have h1 : min (max a 0) (s.length : Int) = a := by omega
  have h2 : min (max b 0) (s.length : Int) = b := by omega
  rw [h1, h2]
  have h3 : max a b = b := by omega
  have h4 : min a b = a := by omega
  rw [h3, h4]

theorem jsLastIndexOf_ge (s pat : List Char) : -1 ≤ jsLastIndexOf s pat := by
  unfold jsLastIndexOf
  cases h : ((List.range (s.length + 1)).filter
      (fun i => pat.isPrefixOf (s.drop i))).getLast? with
  | none => simp
  | some i =>
    show -1 ≤ (i : Int)
    omega

theorem jsLastIndexOf_le (s pat : List Char) (h1 : 1 ≤ s.length)
    (h2 : 2 ≤ pat.length) :
    jsLastIndexOf s pat ≤ (s.length : Int) - 2 := by
  unfold jsLastIndexOf
  cases h : ((List.range (s.length + 1)).filter
      (fun i => pat.isPrefixOf (s.drop i))).getLast? with
  | none => simp; omega
  | some i =>
    simp only
    have hmem : i ∈ (List.range (s.length + 1)).filter
        (fun i => pat.isPrefixOf (s.drop i)) := List.mem_of_mem_getLast? h
    have := List.mem_filter.mp hmem
    have hpre : pat <+: s.drop i := List.isPrefixOf_iff_prefix.mp this.2
    have hlen : pat.length ≤ (s.drop i).length := hpre.length_le
    rw [List.length_drop] at hlen
    omega

theorem sentenceEndIdx_bounds (l : List Char) (h : l.length = 100) :
    -1 ≤ sentenceEndIdx l ∧ sentenceEndIdx l ≤ 98 := by
  unfold sentenceEndIdx
  have b1 := jsLastIndexOf_le l ['.', ' '] (by omega) (by simp)
  have b2 := jsLastIndexOf_le l ['.', '\n'] (by omega) (by simp)
  have b3 := jsLastIndexOf_le l ['?', ' '] (by omega) (by simp)
  have b4 := jsLastIndexOf_le l ['?', '\n'] (by omega) (by simp)
  have b5 := jsLastIndexOf_le l ['!', ' '] (by omega) (by simp)
  have b6 := jsLastIndexOf_le l ['!', '\n'] (by omega) (by simp)
  have g1 := jsLastIndexOf_ge l ['.', ' ']
  rw [h] at b1 b2 b3 b4 b5 b6
  omega

/-- The bounds on one window end needed by the loop invariant: the window is
non-empty, at most `chunkSize` long, stays within the text, ends at
position 100 or later unless it reaches the end of the text, and loses at
most 98 characters to sentence alignment. -/
theorem windowEnd_spec (text : List Char) (start : Int) (h0 : 0 ≤ start)
    (h1 : start < (text.length : Int)) :
    start < windowEnd text 500 start ∧
    windowEnd text 500 start ≤ start + 500 ∧
    windowEnd text 500 start ≤ (text.length : Int) ∧
    (100 ≤ windowEnd text 500 start ∨
      windowEnd text 500 start = (text.length : Int)) ∧
    (start + 500 ≤ (text.length : Int) →
      start + 402 ≤ windowEnd text 500 start) := by
  unfold windowEnd
  by_cases hN : start + 500 < (text.length : Int)
  · have hmin : min (start + 500) (text.length : Int) = start + 500 := by omega
    rw [hmin, if_pos hN]
    have hsub : jsSubstr text (start + 500 - 100) (start + 500) =
        (text.take (start + 500).toNat).drop (start + 500 - 100).toNat :=
      jsSubstr_eq text _ _ (by omega) (by omega) (by omega)
    have hlen : (jsSubstr text (start + 500 - 100) (start + 500)).length = 100 := by
      rw [hsub, List.length_drop, List.length_take]
      omega
    have hb := sentenceEndIdx_bounds _ hlen
    by_cases hse : sentenceEndIdx (jsSubstr text (start + 500 - 100) (start + 500)) = -1
    · rw [if_pos hse]; omega
    · rw [if_neg hse]; omega
  · have hmin : min (start + 500) (text.length : Int) = (text.length : Int) := by
      omega
    rw [hmin, if_neg (by omega)]
    omega

theorem reassemble_snoc (l : List (List Char)) (c : List Char) (h : l ≠ []) :
    reassemble (l ++ [c]) = reassemble l ++ c.drop 100 := by
  cases l with
  | nil => exact absurd rfl h
  | cons d rest => simp [reassemble]

/-- Dropping the 100 overlapped characters of the final tail chunk yields
exactly the uncovered part of the text, for every way the tail's start can
fall (including the negative-index case of JS `slice`). -/
theorem tail_drop (text : List Char) (e : Int) (he0 : 0 < e)
    (heN : e ≤ (text.length : Int))
    (hcase : 100 ≤ e ∨ e = (text.length : Int)) :
    (jsSliceFrom text (e - 100)).drop 100 = text.drop e.toNat := by
  unfold jsSliceFrom
  by_cases h100 : 100 ≤ e
  · rw [jsSliceIdx_of_nonneg _ _ (by omega) (by omega), List.drop_drop]
    congr 1
    omega
  · have heq : e = (text.length : Int) := by omega
    have hsmall : text.length < 100 := by omega
    unfold jsSliceIdx
    rw [if_pos (by omega)]
    have hL : (text.drop (max ((text.length : Int) + (e - 100)) 0).toNat).length
        ≤ 100 := by
      rw [List.length_drop]; omega
    rw [List.drop_eq_nil_of_le hL, List.drop_eq_nil_of_le (by omega)]

/-- The loop invariant for `splitLoop` with the repository's parameters
(`chunkSize = 500`, `overlap = 100`): provided enough fuel, the loop ends by
pushing the final tail, the accumulated chunks reassemble to the whole text,
and every chunk but the last is at most 500 characters long. -/
theorem splitLoop_spec (text : List Char) :
    ∀ (fuel : Nat) (start : Int) (acc : List (List Char)),
      ((text.length : Int) - start).toNat < fuel →
      0 < text.length →
      (acc = [] ∧ start = 0 ∨
        acc ≠ [] ∧ 0 ≤ start ∧ start + 500 ≤ (text.length : Int) ∧
          reassemble acc = text.take (start + 100).toNat) →
      (∀ c ∈ acc, c.length ≤ 500) →
      reassemble (splitLoop text 500 100 fuel start acc) = text ∧
      (∀ c ∈ (splitLoop text 500 100 fuel start acc).dropLast,
        c.length ≤ 500) := by
  intro fuel
  induction fuel with
  | zero => intro start acc hfuel _ _ _; omega
  | succ fuel ih =>
    intro start acc hfuel hpos hinv hsize
    have h0 : 0 ≤ start := by rcases hinv with ⟨_, h⟩ | ⟨_, h, _⟩ <;> omega
    have h1 : start < (text.length : Int) := by
      rcases hinv with ⟨_, h⟩ | ⟨_, _, h, _⟩ <;> omega
    obtain ⟨hw1, hw2, hw3, hw4, hw5⟩ := windowEnd_spec text start h0 h1
    rw [splitLoop, if_pos h1]
    have hslice : jsSlice text start (windowEnd text 500 start) =
        (text.take (windowEnd text 500 start).toNat).drop start.toNat :=
      jsSlice_eq text _ _ h0 (by omega) (by omega) hw3
    have hchunklen : (jsSlice text start (windowEnd text 500 start)).length
        ≤ 500 := by
      rw [hslice, List.length_drop, List.length_take]
      omega
    have hacc1 : reassemble
        (acc ++ [jsSlice text start (windowEnd text 500 start)]) =
        text.take (windowEnd text 500 start).toNat := by
      rcases hinv with ⟨hnil, hzero⟩ | ⟨hne, _, h500, hre⟩
      · subst hnil; subst hzero
        simp only [List.nil_append, reassemble, List.map_nil,
          List.flatten_nil, List.append_nil]
        rw [hslice]
        simp
      · rw [reassemble_snoc acc _ hne, hre, hslice]
        have h402 : start + 402 ≤ windowEnd text 500 start := hw5 h500
        rw [List.drop_drop]
        have harg : start.toNat + 100 = (start + 100).toNat := by omega
        rw [harg]
        calc text.take ((start + 100).toNat) ++
              (text.take (windowEnd text 500 start).toNat).drop
                ((start + 100).toNat)
            = (text.take (windowEnd text 500 start).toNat).take
                ((start + 100).toNat) ++
              (text.take (windowEnd text 500 start).toNat).drop
                ((start + 100).toNat) := by
              rw [List.take_take]
              have hmin : min ((start + 100).toNat)
                  ((windowEnd text 500 start).toNat) = (start + 100).toNat := by
                omega
              rw [hmin]
          _ = text.take (windowEnd text 500 start).toNat :=
              List.take_append_drop _ _
    have hsize1 : ∀ c ∈ acc ++ [jsSlice text start (windowEnd text 500 start)],
        c.length ≤ 500 := by
      intro c hc
      rcases List.mem_append.mp hc with hc | hc
      · exact hsize c hc
      · rw [List.mem_singleton.mp hc]; exact hchunklen
    by_cases hbr : windowEnd text 500 start - 100 + 500 > (text.length : Int) ∧
        windowEnd text 500 start - 100 < (text.length : Int)
    · rw [if_pos hbr]
      constructor
      · rw [reassemble_snoc _ _ (by simp), hacc1,
          tail_drop text (windowEnd text 500 start) (by omega) hw3 hw4]
        exact List.take_append_drop _ _
      · intro c hc
        have hdl : (acc ++ [jsSlice text start (windowEnd text 500 start)]
            ++ [jsSliceFrom text (windowEnd text 500 start - 100)]).dropLast =
            acc ++ [jsSlice text start (windowEnd text 500 start)] := by
          simp
        rw [hdl] at hc
        exact hsize1 c hc
    · rw [if_neg hbr]
      have hle : windowEnd text 500 start - 100 < (text.length : Int) := by
        omega
      have hcont : windowEnd text 500 start - 100 + 500 ≤
          (text.length : Int) := by
        rcases not_and_or.mp hbr with h | h
        · omega
        · omega
      have h100e : 100 ≤ windowEnd text 500 start := by
        rcases hw4 with h | h
        · exact h
        · omega
      have h402 : start + 402 ≤ windowEnd text 500 start := by
        apply hw5
        omega
      apply ih
      · omega
      · exact hpos
      · right
        refine ⟨by simp, by omega, by omega, ?_⟩
        rw [hacc1]
        congr 1
        omega
      · exact hsize1

/-- C4: with the fixed parameters `chunkSize = 500`, `overlap = 100`,
`splitIntoChunks` is a pure function returning the same sequence on repeated
calls, returns the empty sequence on empty input, its chunks jointly cover
the whole input text with no gaps (reassembling the chunks minus their
100-character overlaps yields the text back), and every chunk except the
last has length at most `chunkSize`. -/
theorem splitIntoChunks_pure_covering_bounded (text : List Char) :
    splitIntoChunks text 500 100 = splitIntoChunks text 500 100 ∧
    splitIntoChunks ([] : List Char) 500 100 = [] ∧
    reassemble (splitIntoChunks text 500 100) = text ∧
    ∀ c ∈ (splitIntoChunks text 500 100).dropLast, c.length ≤ 500 := by
  refine ⟨rfl, by decide, ?_⟩
  by_cases h : text.length = 0
  · have hnil : text = [] := List.length_eq_zero.mp h
    subst hnil
    constructor
    · decide
    · intro c hc
      simp [splitIntoChunks] at hc
  · have hspec := splitLoop_spec text (text.length + 1) 0 []
      (by omega) (by omega) (Or.inl ⟨rfl, rfl⟩) (by simp)
    unfold splitIntoChunks
    rw [if_neg h]
    exact hspec

/-- Witness for C4 at a concrete input: the chunks of `"ab"` reassemble to
`"ab"`, and the concrete non-final chunk respects the 500-character bound. -/
theorem splitIntoChunks_pure_covering_bounded_witness :
    reassemble (splitIntoChunks ['a', 'b'] 500 100) = ['a', 'b'] ∧
    (['a', 'b'] : List Char).length ≤ 500 :=
  ⟨(splitIntoChunks_pure_covering_bounded ['a', 'b']).2.2.1,
    (splitIntoChunks_pure_covering_bounded ['a', 'b']).2.2.2 ['a', 'b']
      (by decide)⟩

/-- C5 counterexample: `"ab"` is non-empty and no longer than `chunkSize`,
yet `splitIntoChunks` does not return a single chunk equal to the whole
text: after pushing the whole text as its first window, the loop also pushes
the tail `text.slice(len - overlap)` (which for this two-character input
resolves, through JS negative-index slicing, to the whole text again), so
the result is two chunks. -/
theorem splitIntoChunks_short_text_counterexample :
    0 < (['a', 'b'] : List Char).length ∧
    (['a', 'b'] : List Char).length ≤ 500 ∧
    splitIntoChunks ['a', 'b'] 500 100 ≠ [['a', 'b']] := by
  decide

/-- C5 amended: for every non-empty text of length at most `chunkSize`, the
result is exactly two chunks: the whole text followed by the final tail
chunk `text.slice(len - overlap)`.  By JS slice semantics that tail is the
last `overlap` characters when `len ≥ overlap`; when `len < overlap` the
negative start index resolves to `max(2·len - overlap, 0)`, so the tail is
the whole text again when `2·len ≤ overlap` and the last `overlap - len`
characters otherwise. -/
theorem splitIntoChunks_short_text (text : List Char) (h0 : 0 < text.length)
    (h1 : (text.length : Int) ≤ 500) :
    splitIntoChunks text 500 100 =
      [text, jsSliceFrom text ((text.length : Int) - 100)] := by
  unfold splitIntoChunks
  rw [if_neg (by omega)]
  rw [splitLoop, if_pos (by omega : (0 : Int) < (text.length : Int))]
  have hwe : windowEnd text 500 0 = (text.length : Int) := by
    unfold windowEnd
    have hmin : min ((0 : Int) + 500) (text.length : Int) =
        (text.length : Int) := by omega
    rw [hmin, if_neg (by omega)]
  rw [hwe]
  rw [if_pos ⟨by omega, by omega⟩]
  have hs : jsSlice text 0 (text.length : Int) = text := by
    rw [jsSlice_eq text 0 _ le_rfl (by omega) (by omega) le_rfl]
    simp
  rw [hs]
  simp

/-- Witness for the amended C5 at a concrete input. -/
theorem splitIntoChunks_short_text_witness :
    splitIntoChunks ['a', 'b'] 500 100 =
      [['a', 'b'], jsSliceFrom ['a', 'b']
        (((['a', 'b'] : List Char).length : Int) - 100)] :=
  splitIntoChunks_short_text ['a', 'b'] (by decide) (by decide)

/-! ### The vector index (`src/src/backend/rag/qdrant.mjs`)

`DocumentChunk` points carry a payload whose root-level `organizationId` is
the normalized owner; `searchDocumentsForUser` validates its inputs, obtains
a client, and runs a similarity search with a server-side `must` filter on
`organizationId`, returning `[]` on every failure path.  The backing Qdrant
store is an external collaborator; its filtered search is modelled by its
documented semantics (score all points, keep those matching the filter,
order by score descending, return at most `limit`), with the scoring
function left abstract. -/

/-- The `metadata` object attached to each indexed chunk
(`pharsingfile.mjs` lines 232-237). -/
structure ChunkMeta where
  source : String
  page : Nat
  chunk : Nat
  organizationId : String
deriving DecidableEq

/-- A Qdrant point payload (`pharsingfile.mjs` lines 230-239 /
`qdrant.mjs` lines 196-199): chunk text, metadata, and the root-level
`organizationId` used by search filters. -/
structure QPayload where
  text : String
  metadata : ChunkMeta
  organizationId : String
deriving DecidableEq

/-- A stored Qdrant point: numeric id, embedding vector, payload. -/
structure QPoint where
  id : Int
  vector : List ℚ
  payload : QPayload
deriving DecidableEq

/-- `normalizeOrganizationId` (`qdrant.mjs` lines 165-167): every character
outside `[a-zA-Z0-9+:\-]` is replaced by an underscore. -/
def normalizeOrganizationId (s : String) : String :=
  String.mk (s.data.map (fun c =>
    if ('a' ≤ c ∧ c ≤ 'z') ∨ ('A' ≤ c ∧ c ≤ 'Z') ∨ ('0' ≤ c ∧ c ≤ '9') ∨
        c = '+' ∨ c = ':' ∨ c = '-' then c else '_'))

/-- Insert a point into a list sorted by descending score. -/
def insertDesc (score : QPoint → ℚ) (x : QPoint) : List QPoint → List QPoint
  | [] => [x]
  | q :: qs => if score q < score x then x :: q :: qs else q :: insertDesc score x qs

/-- Sort points by descending score (insertion sort). -/
def sortByScoreDesc (score : QPoint → ℚ) (l : List QPoint) : List QPoint :=
  l.foldr (insertDesc score) []

/-- The backing store's filtered similarity search, modelled from the
documented Qdrant semantics used by the repository: keep exactly the points
whose payload `organizationId` matches the `must` filter value, order by
descending similarity score, return at most `limit`. -/
def qdrantFilteredSearch (store : List QPoint) (score : QPoint → ℚ)
    (filterValue : String) (limit : Nat) : List QPoint :=
  (sortByScoreDesc score
    (store.filter (fun p => p.payload.organizationId == filterValue))).take limit

/-- `searchDocumentsForUser(query, organizationId, limit = 5)`
(`qdrant.mjs` lines 271-358).  `clientOk` models whether `getQdrantClient`
returned a client and `searchOk` whether the search call succeeded (every
error path of the source returns `[]`).  The similarity scoring of the
external store is abstracted as `score`, applied to the query vector and
each stored vector. -/
def searchDocumentsForUser (clientOk searchOk : Bool) (store : List QPoint)
    (score : List ℚ → List ℚ → ℚ) (query : List ℚ) (organizationId : String)
    (limit : Nat := 5) : List QPoint :=
  if organizationId = "" then []
  else if clientOk = false then []
  else if searchOk = false then []
  else qdrantFilteredSearch store (fun p => score query p.vector)
    (normalizeOrganizationId organizationId) limit

theorem mem_insertDesc (score : QPoint → ℚ) (x p : QPoint) :
    ∀ l : List QPoint, p ∈ insertDesc score x l ↔ p = x ∨ p ∈ l
  | [] => by simp [insertDesc]
  | q :: qs => by
    simp only [insertDesc]
    split
    · simp [List.mem_cons]
    · simp only [List.mem_cons, mem_insertDesc score x p qs]
      tauto

theorem mem_sortByScoreDesc (score : QPoint → ℚ) (p : QPoint) :
    ∀ l : List QPoint, p ∈ sortByScoreDesc score l ↔ p ∈ l
  | [] => by simp [sortByScoreDesc]
  | q :: qs => by
    simp only [sortByScoreDesc, List.foldr_cons]
    rw [show List.foldr (insertDesc score) [] qs = sortByScoreDesc score qs
      from rfl]
    rw [mem_insertDesc score q p (sortByScoreDesc score qs)]
    rw [mem_sortByScoreDesc score p qs]
    simp [List.mem_cons]

theorem mem_of_mem_take' {α : Type} {p : α} {n : Nat} :
    ∀ {l : List α}, p ∈ l.take n → p ∈ l := by
  intro l h
  exact List.mem_of_mem_take h

/-- C1: owner isolation of the vector index.  Every chunk returned by
`searchDocumentsForUser(query, A, limit)` has stored `organizationId` equal
to the normalized form of `A`; consequently, for distinct normalized owners
`A ≠ B`, a search scoped to `A` never returns a chunk owned by `B`, for
every scoring function (in particular even if `B`-owned chunks would score
higher on the query vector). -/
theorem searchDocumentsForUser_owner_isolation
    (clientOk searchOk : Bool) (store : List QPoint)
    (score : List ℚ → List ℚ → ℚ) (query : List ℚ) (A : String) (limit : Nat)
    (p : QPoint)
    (hp : p ∈ searchDocumentsForUser clientOk searchOk store score query A limit) :
    p.payload.organizationId = normalizeOrganizationId A ∧
    ∀ B : String, normalizeOrganizationId A ≠ normalizeOrganizationId B →
      p.payload.organizationId ≠ normalizeOrganizationId B := by
  have hmain : p.payload.organizationId = normalizeOrganizationId A := by
    unfold searchDocumentsForUser at hp
    split at hp
    · exact absurd hp (List.not_mem_nil p)
    · split at hp
      · exact absurd hp (List.not_mem_nil p)
      · split at hp
        · exact absurd hp (List.not_mem_nil p)
        · unfold qdrantFilteredSearch at hp
          have h1 := mem_of_mem_take' hp
          rw [mem_sortByScoreDesc] at h1
          have h2 := List.mem_filter.mp h1
          exact eq_of_beq h2.2
  exact ⟨hmain, fun B hAB => by rw [hmain]; exact hAB⟩

/-- Witness for C1: a concrete two-owner store in which the foreign-owned
point scores higher, searched for the first owner; the returned point is
owned by the first owner. -/
theorem searchDocumentsForUser_owner_isolation_witness :
    (⟨1, [1], ⟨"t", ⟨"f.pdf", 1, 1, "a b"⟩, "a_b"⟩⟩ : QPoint) ∈
      searchDocumentsForUser true true
        [⟨1, [1], ⟨"t", ⟨"f.pdf", 1, 1, "a b"⟩, "a_b"⟩⟩,
         ⟨2, [9], ⟨"u", ⟨"g.pdf", 1, 1, "evil"⟩, "evil"⟩⟩]
        (fun _ v => v.headD 0) [1] "a b" 5 ∧
    (⟨1, [1], ⟨"t", ⟨"f.pdf", 1, 1, "a b"⟩, "a_b"⟩⟩ : QPoint).payload.organizationId =
      normalizeOrganizationId "a b" := by
  refine ⟨by decide, ?_⟩
  exact (searchDocumentsForUser_owner_isolation true true
    [⟨1, [1], ⟨"t", ⟨"f.pdf", 1, 1, "a b"⟩, "a_b"⟩⟩,
     ⟨2, [9], ⟨"u", ⟨"g.pdf", 1, 1, "evil"⟩, "evil"⟩⟩]
    (fun _ v => v.headD 0) [1] "a b" 5
    ⟨1, [1], ⟨"t", ⟨"f.pdf", 1, 1, "a b"⟩, "a_b"⟩⟩ (by decide)).1

/-! ### Inserting documents (`insertDocuments`, `qdrant.mjs` lines 175-262)

`insertDocuments(documents, organizationId)` maps each document to a point
(assigning a numeric id from `Date.now()` and the position when the
document's own id is a string, stamping the normalized owner into the
payload), then submits the points in sequential batches of `BATCH_SIZE = 5`,
counting successes and failures per batch, and finally returns
`successCount > 0`.  The external upsert outcome of each batch is modelled
by `batchOk`; the store's upsert semantics (points replace existing points
with the same id, later points in a batch override earlier ones) is
modelled from the Qdrant documentation. -/

/-- A document id as handled by `qdrant.mjs` lines 186-191: either a string
(replaced by a generated numeric id) or an already numeric id. -/
inductive DocId where
  | str (s : String)
  | num (n : Int)
deriving DecidableEq

/-- A document passed to `insertDocuments`: id, embedding vector, payload. -/
structure DocRecord where
  id : DocId
  vector : List ℚ
  payload : QPayload
deriving DecidableEq

/-- The number of decimal digits of `n`, as produced by JS
`Number.prototype.toString`. -/
def decDigits (n : Nat) : Nat := (Nat.toDigits 10 n).length

/-- Decimal-concatenation: `parseInt(a.toString() + b.toString())` for
natural `a`, `b`. -/
def decCat (a b : Nat) : Nat := a * 10 ^ decDigits b + b

/-- The numeric id assigned to a document (`qdrant.mjs` lines 188-191):
`parseInt(Date.now().toString() + index.toString())` for string ids, the
document's own id otherwise. -/
def numericIdOf (nowTs index : Nat) : DocId → Int
  | .str _ => (decCat nowTs index : Int)
  | .num n => n

/-- The point list built by `insertDocuments` (`qdrant.mjs` lines 186-201):
each document keeps its vector and payload, with the normalized owner id
written into the payload root. -/
def mkPoints (nowTs : Nat) (documents : List DocRecord)
    (normalizedId : String) : List QPoint :=
  documents.enum.map (fun ip =>
    ⟨numericIdOf nowTs ip.1 ip.2.id, ip.2.vector,
      { ip.2.payload with organizationId := normalizedId }⟩)

/-- Fuel-driven batch decomposition; one unit of fuel per batch suffices
whenever `fuel ≥ length`, and the final catch-all is unreachable under that
bound. -/
def batchesOf5Go : Nat → List QPoint → List (List QPoint)
  | _, [] => []
  | fuel + 1, p :: rest => (p :: rest.take 4) :: batchesOf5Go fuel (rest.drop 4)
  | 0, l => [l]

/-- The batch decomposition performed by the loop
`for (let i = 0; i < points.length; i += BATCH_SIZE)` with
`points.slice(i, i + BATCH_SIZE)` and `BATCH_SIZE = 5`. -/
def batchesOf5 (l : List QPoint) : List (List QPoint) :=
  batchesOf5Go l.length l

/-- Within one upsert batch, a later point with the same id overrides an
earlier one (modelled from the Qdrant upsert semantics). -/
def dedupById : List QPoint → List QPoint
  | [] => []
  | p :: ps => if ps.any (fun q => q.id == p.id) then dedupById ps
               else p :: dedupById ps

/-- Upserting a batch into the store: existing points whose id occurs in
the batch are replaced (modelled from the Qdrant upsert semantics). -/
def upsertPoints (store batch : List QPoint) : List QPoint :=
  store.filter (fun p => !(batch.any (fun q => q.id == p.id))) ++
    dedupById batch

/-- The sequential batch loop of `insertDocuments` (`qdrant.mjs` lines
217-244): each batch is tried independently; a successful batch is
upserted and adds its size to `successCount`, a failing batch adds its
size (`min(BATCH_SIZE, points.length - i)`) to `errorCount`, and in either
case the loop continues with the next batch.  Returns the final store,
`successCount` and `errorCount`. -/
def insertBatches (batchOk : Nat → Bool) :
    Nat → List QPoint → List (List QPoint) → List QPoint × Nat × Nat
  | _, store, [] => (store, 0, 0)
  | k, store, b :: bs =>
    if batchOk k then
      ((insertBatches batchOk (k + 1) (upsertPoints store b) bs).1,
        b.length + (insertBatches batchOk (k + 1) (upsertPoints store b) bs).2.1,
        (insertBatches batchOk (k + 1) (upsertPoints store b) bs).2.2)
    else
      ((insertBatches batchOk (k + 1) store bs).1,
        (insertBatches batchOk (k + 1) store bs).2.1,
        b.length + (insertBatches batchOk (k + 1) store bs).2.2)

/-- `insertDocuments(documents, organizationId)` (`qdrant.mjs` lines
175-262).  `clientOk` models whether `getQdrantClient` returned a client
(otherwise the outer catch returns `false`).  Returns the resulting store
and the boolean the source returns: `successCount > 0`. -/
def insertDocuments (clientOk : Bool) (batchOk : Nat → Bool) (nowTs : Nat)
    (store : List QPoint) (documents : List DocRecord)
    (organizationId : String) : List QPoint × Bool :=
  if clientOk = false then (store, false)
  else
    (((insertBatches batchOk 0 store
        (batchesOf5 (mkPoints nowTs documents
          (normalizeOrganizationId organizationId)))).1),
      decide (0 < (insertBatches batchOk 0 store
        (batchesOf5 (mkPoints nowTs documents
          (normalizeOrganizationId organizationId)))).2.1))

theorem batchesOf5Go_flatten :
    ∀ (fuel : Nat) (l : List QPoint), l.length ≤ fuel →
      (batchesOf5Go fuel l).flatten = l := by
  intro fuel
  induction fuel with
  | zero =>
    intro l hl
    have : l = [] := List.eq_nil_of_length_eq_zero (by omega)
    subst this
    simp [batchesOf5Go]
  | succ n ih =>
    intro l hl
    cases l with
    | nil => simp [batchesOf5Go]
    | cons p rest =>
      rw [batchesOf5Go]
      simp only [List.flatten_cons]
      rw [ih (rest.drop 4) (by simp at hl ⊢; omega)]
      simp [List.cons_append, List.take_append_drop]

theorem batchesOf5_flatten (l : List QPoint) : (batchesOf5 l).flatten = l :=
  batchesOf5Go_flatten l.length l le_rfl

theorem batchesOf5Go_sizes :
    ∀ (fuel : Nat) (l : List QPoint), l.length ≤ fuel →
      ∀ b ∈ batchesOf5Go fuel l, 0 < b.length ∧ b.length ≤ 5 := by
  intro fuel
  induction fuel with
  | zero =>
    intro l hl b hb
    have : l = [] := List.eq_nil_of_length_eq_zero (by omega)
    subst this
    simp [batchesOf5Go] at hb
  | succ n ih =>
    intro l hl b hb
    cases l with
    | nil => simp [batchesOf5Go] at hb
    | cons p rest =>
      rw [batchesOf5Go] at hb
      rcases List.mem_cons.mp hb with hb | hb
      · subst hb
        simp [List.length_take]
      · exact ih (rest.drop 4) (by simp at hl ⊢; omega) b hb

theorem batchesOf5_sizes (l : List QPoint) :
    ∀ b ∈ batchesOf5 l, 0 < b.length ∧ b.length ≤ 5 :=
  batchesOf5Go_sizes l.length l le_rfl

theorem insertBatches_count (batchOk : Nat → Bool) :
    ∀ (bs : List (List QPoint)) (k : Nat) (store : List QPoint),
    (insertBatches batchOk k store bs).2.1 =
      ((List.enumFrom k bs).map
        (fun jb => if batchOk jb.1 then jb.2.length else 0)).sum := by
  intro bs
  induction bs with
  | nil => intro k store; simp [insertBatches, List.enumFrom]
  | cons b rest ih =>
    intro k store
    rw [insertBatches]
    by_cases hk : batchOk k
    · rw [if_pos hk]
      simp only [List.enumFrom, List.map_cons, List.sum_cons, if_pos hk]
      rw [ih (k + 1) (upsertPoints store b)]
    · rw [if_neg hk]
      simp only [List.enumFrom, List.map_cons, List.sum_cons, if_neg hk]
      rw [ih (k + 1) store]
      omega

/-- C6 amended: `insertDocuments` submits the prepared points in sequential
batches of at most 5 (which jointly are exactly the prepared points); a
failing batch does not abort the remaining batches — the internal success
count is the sum of the sizes of all successful batches, wherever the
failures fall; and the operation returns not that count but the boolean
`successCount > 0`. -/
theorem insertDocuments_batching (batchOk : Nat → Bool) (nowTs : Nat)
    (store : List QPoint) (documents : List DocRecord)
    (organizationId : String) :
    (batchesOf5 (mkPoints nowTs documents
        (normalizeOrganizationId organizationId))).flatten =
      mkPoints nowTs documents (normalizeOrganizationId organizationId) ∧
    (∀ b ∈ batchesOf5 (mkPoints nowTs documents
        (normalizeOrganizationId organizationId)),
      0 < b.length ∧ b.length ≤ 5) ∧
    (insertBatches batchOk 0 store (batchesOf5 (mkPoints nowTs documents
        (normalizeOrganizationId organizationId)))).2.1 =
      ((List.enumFrom 0 (batchesOf5 (mkPoints nowTs documents
          (normalizeOrganizationId organizationId)))).map
        (fun jb => if batchOk jb.1 then jb.2.length else 0)).sum ∧
    (insertDocuments true batchOk nowTs store documents organizationId).2 =
      decide (0 < (insertBatches batchOk 0 store
        (batchesOf5 (mkPoints nowTs documents
          (normalizeOrganizationId organizationId)))).2.1) :=
  ⟨batchesOf5_flatten _, batchesOf5_sizes _, insertBatches_count _ _ _ _, rfl⟩

/-- Witness for the amended C6 at a concrete input: the single batch formed
from one document is non-empty and within the size bound. -/
theorem insertDocuments_batching_witness :
    0 < (mkPoints 0 [⟨DocId.num 1, [1], ⟨"t1", ⟨"f.pdf", 1, 1, "org"⟩, "org"⟩⟩]
        (normalizeOrganizationId "org")).length ∧
    (mkPoints 0 [⟨DocId.num 1, [1], ⟨"t1", ⟨"f.pdf", 1, 1, "org"⟩, "org"⟩⟩]
        (normalizeOrganizationId "org")).length ≤ 5 :=
  (insertDocuments_batching (fun _ => true) 0 []
      [⟨DocId.num 1, [1], ⟨"t1", ⟨"f.pdf", 1, 1, "org"⟩, "org"⟩⟩] "org").2.1
    (mkPoints 0 [⟨DocId.num 1, [1], ⟨"t1", ⟨"f.pdf", 1, 1, "org"⟩, "org"⟩⟩]
      (normalizeOrganizationId "org")) (by decide)

/-- C6 counterexample: the operation does not return the number of
successfully inserted chunks.  With every batch succeeding, inserting one
document and inserting two documents produce internal success counts 1 and
2, yet `insertDocuments` returns the same value (`true`) in both runs — the
source returns the boolean `successCount > 0` (`qdrant.mjs` line 251), not
the count. -/
theorem insertDocuments_count_counterexample :
    (insertDocuments true (fun _ => true) 0 []
        [⟨DocId.num 1, [1], ⟨"t1", ⟨"f.pdf", 1, 1, "org"⟩, "org"⟩⟩] "org").2 =
      (insertDocuments true (fun _ => true) 0 []
        [⟨DocId.num 1, [1], ⟨"t1", ⟨"f.pdf", 1, 1, "org"⟩, "org"⟩⟩,
         ⟨DocId.num 2, [1], ⟨"t2", ⟨"f.pdf", 1, 2, "org"⟩, "org"⟩⟩] "org").2 ∧
    (insertBatches (fun _ => true) 0 []
        (batchesOf5 (mkPoints 0
          [⟨DocId.num 1, [1], ⟨"t1", ⟨"f.pdf", 1, 1, "org"⟩, "org"⟩⟩]
          (normalizeOrganizationId "org")))).2.1 = 1 ∧
    (insertBatches (fun _ => true) 0 []
        (batchesOf5 (mkPoints 0
          [⟨DocId.num 1, [1], ⟨"t1", ⟨"f.pdf", 1, 1, "org"⟩, "org"⟩⟩,
           ⟨DocId.num 2, [1], ⟨"t2", ⟨"f.pdf", 1, 2, "org"⟩, "org"⟩⟩]
          (normalizeOrganizationId "org")))).2.1 = 2 := by
  decide

/-! ### Chunk point ids built by the ingestion pipeline
(`processPDFForOrganization`, `src/unnamed/part_008` lines 186-252) -/

/-- The "unique" numeric id of an indexed chunk
(`part_008` line 224): `parseInt(`timestamp-page-chunk` digits
concatenated)`, i.e. decimal concatenation of the upload timestamp, the
0-based page index and the 0-based chunk index. -/
def uniqueIdOf (ts i j : Nat) : Nat := decCat (decCat ts i) j

/-- The vector record assembled for one successfully embedded chunk
(`part_008` lines 224-240). -/
def mkVectorRecord (ts i j : Nat) (fileName organizationId : String)
    (chunkText : String) (v : List ℚ) : DocRecord :=
  ⟨DocId.num (uniqueIdOf ts i j), v,
    ⟨chunkText, ⟨fileName, i + 1, j + 1, organizationId⟩, organizationId⟩⟩

/-- C10: chunk point identifiers are not injective.  For every upload
timestamp, page index 1 / chunk index 12 and page index 11 / chunk index 2
concatenate to the same digits, hence the same numeric id; the two distinct
records built from them collide, the later upsert overwrites the earlier
point (one point remains in the store out of two records), and so fewer
chunks are retrievable than the ingestion-reported chunk count (2). -/
theorem uniqueIdOf_collision_overwrite :
    (∀ ts : Nat, uniqueIdOf ts 1 12 = uniqueIdOf ts 11 2) ∧
    mkVectorRecord 1700000000000 1 12 "f.pdf" "org" "alpha" [1] ≠
      mkVectorRecord 1700000000000 11 2 "f.pdf" "org" "beta" [1] ∧
    (insertDocuments true (fun _ => true) 0 []
      [mkVectorRecord 1700000000000 1 12 "f.pdf" "org" "alpha" [1],
       mkVectorRecord 1700000000000 11 2 "f.pdf" "org" "beta" [1]]
      "org").1.length = 1 ∧
    [mkVectorRecord 1700000000000 1 12 "f.pdf" "org" "alpha" [1],
     mkVectorRecord 1700000000000 11 2 "f.pdf" "org" "beta" [1]].length = 2 := by
  refine ⟨?_, by decide, by decide, rfl⟩
  intro ts
  unfold uniqueIdOf decCat
  have h1 : decDigits 1 = 1 := by decide
  have h12 : decDigits 12 = 2 := by decide
  have h11 : decDigits 11 = 2 := by decide
  have h2 : decDigits 2 = 1 := by decide
  rw [h1, h12, h11, h2]
  ring

/-! ### The ingestion pipeline (`src/unnamed/part_008` lines 148-350)

`processPDFForOrganization` walks the extracted pages, splits each page
into chunks, embeds each chunk (skipping chunks whose embedding fails and
counting the failures), assembles a vector record per successful chunk, and
finally calls `insertDocuments` — whose boolean result is only logged
(lines 269-278), never returned.  `handleFileUpload` wraps this, deletes
the temporary file, and reports `success: true` with
`recordsCount = vectorRecords.length` whenever nothing threw; on any thrown
error it reports `success: false`.  The embedding provider is modelled by
the function `embed` (`none` = failure), extraction/file-system outcomes by
boolean parameters. -/

/-- The inner chunk loop of one page (`part_008` lines 208-251): `i` is the
0-based page index, `j` the 0-based chunk index; failed embeddings are
skipped. -/
def processPageChunks (embed : List Char → Option (List ℚ)) (ts i : Nat)
    (fileName organizationId : String) : Nat → List (List Char) → List DocRecord
  | _, [] => []
  | j, c :: cs =>
    match embed c with
    | some v =>
      mkVectorRecord ts i j fileName organizationId (String.mk c) v ::
        processPageChunks embed ts i fileName organizationId (j + 1) cs
    | none => processPageChunks embed ts i fileName organizationId (j + 1) cs

/-- The page loop of `processPDFForOrganization` (`part_008` lines
196-252): each page's text is split with `splitIntoChunks` and its chunks
embedded in order. -/
def processPages (embed : List Char → Option (List ℚ)) (ts : Nat)
    (fileName organizationId : String) : Nat → List (List Char) → List DocRecord
  | _, [] => []
  | i, page :: rest =>
    processPageChunks embed ts i fileName organizationId 0
      (splitIntoChunks page 500 100) ++
      processPages embed ts fileName organizationId (i + 1) rest

/-- `processPDFForOrganization(filePath, organizationId)` restricted to its
record-building loop (`part_008` lines 186-285); the trailing
`insertDocuments` call's result is only logged by the source and does not
influence the returned records. -/
def processPDFForOrganization (embed : List Char → Option (List ℚ)) (ts : Nat)
    (fileName organizationId : String) (pages : List (List Char)) :
    List DocRecord :=
  processPages embed ts fileName organizationId 0 pages

/-- `N`: the total number of chunks produced from all pages. -/
def totalChunksOf (pages : List (List Char)) : Nat :=
  (pages.map (fun p => (splitIntoChunks p 500 100).length)).sum

/-- `F`: the number of chunks whose embedding fails. -/
def failedChunksOf (embed : List Char → Option (List ℚ))
    (pages : List (List Char)) : Nat :=
  (pages.map (fun p =>
    ((splitIntoChunks p 500 100).filter (fun c => (embed c).isNone)).length)).sum

/-- The result object of `handleFileUpload` (`part_008` lines 324-349); on
the failure path the source omits `recordsCount` and the route substitutes
`0` (`server.mjs` line 478). -/
structure UploadResult where
  success : Bool
  message : String
  recordsCount : Nat
  fileName : String
deriving DecidableEq

/-- `handleFileUpload(file, tempPath, organizationId)` (`part_008` lines
299-350).  `accessOk` models the temp-file access check, `extractOk`
whether `processPDFForOrganization`'s extraction phase threw, `unlinkOk`
whether deleting the temporary file succeeded, and `insertOk` the boolean
returned by `insertDocuments` — which the source ignores. -/
def handleFileUpload (accessOk extractOk unlinkOk insertOk : Bool)
    (embed : List Char → Option (List ℚ)) (ts : Nat)
    (fileName organizationId : String) (pages : List (List Char)) :
    UploadResult :=
  if accessOk = false then
    ⟨false, "Errore durante l\x27elaborazione del file", 0, fileName⟩
  else if extractOk = false then
    ⟨false, "Errore durante l\x27elaborazione del file", 0, fileName⟩
  else if unlinkOk = false then
    ⟨false, "Errore durante l\x27elaborazione del file", 0, fileName⟩
  else
    ⟨true,
      "File elaborato con successo: " ++
        toString (processPDFForOrganization embed ts fileName organizationId
          pages).length ++ " chunks creati",
      (processPDFForOrganization embed ts fileName organizationId pages).length,
      fileName⟩

theorem processPageChunks_length (embed : List Char → Option (List ℚ))
    (ts i : Nat) (fileName organizationId : String) :
    ∀ (cs : List (List Char)) (j : Nat),
      (processPageChunks embed ts i fileName organizationId j cs).length +
        (cs.filter (fun c => (embed c).isNone)).length = cs.length := by
  intro cs
  induction cs with
  | nil => intro j; simp [processPageChunks]
  | cons c rest ih =>
    intro j
    rw [processPageChunks]
    cases he : embed c with
    | some v =>
      simp [List.filter_cons, he]
      have := ih (j + 1)
      omega
    | none =>
      simp [List.filter_cons, he]
      have := ih (j + 1)
      omega

theorem processPages_length (embed : List Char → Option (List ℚ)) (ts : Nat)
    (fileName organizationId : String) :
    ∀ (pages : List (List Char)) (i : Nat),
      (processPages embed ts fileName organizationId i pages).length +
        failedChunksOf embed pages = totalChunksOf pages := by
  intro pages
  induction pages with
  | nil => intro i; simp [processPages, failedChunksOf, totalChunksOf]
  | cons page rest ih =>
    intro i
    rw [processPages]
    simp only [List.length_append, failedChunksOf, totalChunksOf,
      List.map_cons, List.sum_cons]
    have h1 := processPageChunks_length embed ts i fileName organizationId
      (splitIntoChunks page 500 100) 0
    have h2 := ih (i + 1)
    simp only [failedChunksOf, totalChunksOf] at h2
    omega

/-- C7 amended: ingestion skips each failed chunk and continues — the
number of assembled records plus the number of failed embeddings equals the
total chunk count, so the reported `chunkCount` is `N - F`; but the
reported success flag is true exactly when extraction, the access check and
the cleanup succeed, regardless of how many chunks were embedded and
regardless of the ignored `insertDocuments` result — in particular it is
true even when every embedding fails or indexing fails entirely. -/
theorem handleFileUpload_partial_success (accessOk extractOk unlinkOk insertOk : Bool)
    (embed : List Char → Option (List ℚ)) (ts : Nat)
    (fileName organizationId : String) (pages : List (List Char)) :
    (processPDFForOrganization embed ts fileName organizationId pages).length +
      failedChunksOf embed pages = totalChunksOf pages ∧
    failedChunksOf embed pages ≤ totalChunksOf pages ∧
    (handleFileUpload accessOk extractOk unlinkOk insertOk embed ts fileName
      organizationId pages).success = (accessOk && extractOk && unlinkOk) ∧
    (accessOk = true → extractOk = true → unlinkOk = true →
      (handleFileUpload accessOk extractOk unlinkOk insertOk embed ts fileName
        organizationId pages).recordsCount =
        totalChunksOf pages - failedChunksOf embed pages) := by
  have hlen := processPages_length embed ts fileName organizationId pages 0
  refine ⟨hlen, by omega, ?_, ?_⟩
  · unfold handleFileUpload
    cases accessOk <;> cases extractOk <;> cases unlinkOk <;> simp
  · intro h1 h2 h3
    subst h1; subst h2; subst h3
    unfold handleFileUpload
    rw [if_neg (by simp : ¬(true = false)), if_neg (by simp : ¬(true = false)),
      if_neg (by simp : ¬(true = false))]
    dsimp only
    unfold processPDFForOrganization at hlen ⊢
    omega

/-- Witness for the amended C7 at a concrete input: one page `"ab"` whose
two chunks both embed successfully. -/
theorem handleFileUpload_partial_success_witness :
    (handleFileUpload true true true true (fun _ => some [1]) 0 "f.pdf" "org"
      [['a', 'b']]).recordsCount =
      totalChunksOf [['a', 'b']] -
        failedChunksOf (fun _ => some [1]) [['a', 'b']] :=
  (handleFileUpload_partial_success true true true true (fun _ => some [1]) 0
    "f.pdf" "org" [['a', 'b']]).2.2.2 rfl rfl rfl

/-- C7 counterexample: a one-page document whose every chunk fails
embedding is still reported as `success: true` with `chunkCount = 0`, and
the success flag also ignores the `insertDocuments` result (passed here as
`false`): the reported flag is not "true iff at least one chunk was
embedded and indexed". -/
theorem handleFileUpload_success_flag_counterexample :
    (handleFileUpload true true true false (fun _ => none) 0 "f.pdf" "org"
      [['a', 'b']]).success = true ∧
    (processPDFForOrganization (fun _ => none) 0 "f.pdf" "org"
      [['a', 'b']]).length = 0 := by
  decide

/-! ### The reply composer (`generateAIResponse`)

The repository contains two revisions of `gemini.mjs`; the one embedded
here is the variant in `src/unnamed/part_006`, which implements the
bounded 30s wait (`Promise.race` with a rejection whose message contains
"Timeout"), the two distinct apology strings, the empty/whitespace
fallback, and the 1500-character truncation.  The language model is the
function `complete`; the RAG retrieval reuses the embedded
`searchDocumentsForUser`, with the embedding outcome (`embedOut`) and a
thrown retrieval error (`ragThrew`) as parameters. -/

/-- Outcome of the raced model call: either resolved text, or a rejection
carrying an error message (the 30s timer rejects with
`"Timeout nella chiamata a Gemini API"`). -/
inductive GeminiOutcome where
  | ok (text : String)
  | err (msg : String)
deriving DecidableEq

/-- Fixed reply when the API key is missing (`part_006` line 43). -/
def configErrorReply : String :=
  "Mi dispiace, si è verificato un errore di configurazione. L\x27assistente non è disponibile al momento."

/-- Fixed reply on timeout (`part_006` line 182). -/
def timeoutReply : String :=
  "Mi dispiace, la generazione della risposta sta richiedendo troppo tempo. Potresti riformulare la tua domanda o riprovare più tardi?"

/-- Fixed reply on any other provider error (`part_006` line 184). -/
def genericErrorReply : String :=
  "Mi dispiace, si è verificato un errore nella generazione della risposta. Posso aiutarti in altro modo?"

/-- Fixed reply substituted for an empty or whitespace-only completion
(`part_006` line 165). -/
def emptyReplyFallback : String :=
  "Mi dispiace, non sono riuscito a generare una risposta pertinente. Posso aiutarti in altro modo?"

/-- One labeled context block (`part_006` lines 102-110): emitted only for
documents with a non-empty payload text, keeping the original index; empty
metadata fields fall back to `"sconosciuta"` / `"N/A"`. -/
def docBlock (idx : Nat) (p : QPoint) : String :=
  if p.payload.text = "" then ""
  else
    "Documento " ++ toString (idx + 1) ++ " (fonte: " ++
      (if p.payload.metadata.source = "" then "sconosciuta"
        else p.payload.metadata.source) ++
      ", pagina: " ++
      (if p.payload.metadata.page = 0 then "N/A"
        else toString p.payload.metadata.page) ++
      "):\n" ++ p.payload.text ++ "\n\n"

/-- The assembled RAG context (`part_006` lines 100-110). -/
def buildContext (docs : List QPoint) : String :=
  "Informazioni rilevanti dai documenti dell\x27utente:\n\n" ++
    String.join (docs.enum.map (fun ip => docBlock ip.1 ip.2))

/-- The final prompt sent to the model (`part_006` lines 75-141): the RAG
context when a user phone is given, the embedding succeeded, the search did
not throw and returned documents; then the question template; then the
fixed 1500-character instruction. -/
def finalPromptOf (userPhone : Option String) (ragThrew : Bool)
    (embedOut : Option (List ℚ)) (clientOk searchOk : Bool)
    (store : List QPoint) (score : List ℚ → List ℚ → ℚ) (prompt : String) :
    String :=
  (match userPhone, embedOut with
    | some phone, some emb =>
      if ragThrew then prompt
      else
        match searchDocumentsForUser clientOk searchOk store score emb phone 3 with
        | [] => prompt
        | docs =>
          buildContext docs ++ "\n\nDomanda dell\x27utente: " ++ prompt ++
            "\n\nRispondi alla domanda dell\x27utente utilizzando le informazioni fornite sopra quando pertinenti. Se le informazioni non sono sufficienti, fornisci una risposta generale."
    | _, _ => prompt) ++
    "\n\nLimita la tua risposta a un massimo di 1500 caratteri."

/-- `generateAIResponse(prompt, userPhone)` (`src/unnamed/part_006` lines
33-187): config check, RAG context assembly (all of whose failures are
caught locally), the raced model call, the empty/whitespace fallback, the
1500-character truncation, and the outer catch distinguishing timeout
errors from all others. -/
def generateAIResponse (complete : String → GeminiOutcome) (apiKeyOk : Bool)
    (userPhone : Option String) (ragThrew : Bool) (embedOut : Option (List ℚ))
    (clientOk searchOk : Bool) (store : List QPoint)
    (score : List ℚ → List ℚ → ℚ) (prompt : String) : String :=
  if apiKeyOk = false then configErrorReply
  else
    match complete (finalPromptOf userPhone ragThrew embedOut clientOk
        searchOk store score prompt) with
    | .err msg =>
      if jsIncludes msg.data "Timeout".data then timeoutReply
      else genericErrorReply
    | .ok text =>
      if text = "" ∨ jsTrim text.data = [] then emptyReplyFallback
      else if 1500 < text.length then String.mk (text.data.take 1500) ++ "..."
      else text

theorem string_length_mk_append (l : List Char) (s : String) :
    (String.mk l ++ s).length = l.length + s.length := by
  cases s with
  | mk d => exact List.length_append l d

/-- C8: `generateAIResponse` never throws — every path of the embedding,
including retrieval failure, produces a string, and that string is never
empty; on a rejection whose message contains `"Timeout"` (in particular the
30s timer) it returns the fixed "took too long" apology, on any other
provider error the fixed generic apology, and the two apologies are
distinct. -/
theorem generateAIResponse_error_handling (complete : String → GeminiOutcome)
    (apiKeyOk : Bool) (userPhone : Option String) (ragThrew : Bool)
    (embedOut : Option (List ℚ)) (clientOk searchOk : Bool)
    (store : List QPoint) (score : List ℚ → List ℚ → ℚ) (prompt : String) :
    generateAIResponse complete apiKeyOk userPhone ragThrew embedOut clientOk
      searchOk store score prompt ≠ "" ∧
    (∀ msg : String, apiKeyOk = true →
      complete (finalPromptOf userPhone ragThrew embedOut clientOk searchOk
        store score prompt) = .err msg →
      ((jsIncludes msg.data "Timeout".data = true →
        generateAIResponse complete apiKeyOk userPhone ragThrew embedOut
          clientOk searchOk store score prompt = timeoutReply) ∧
       (jsIncludes msg.data "Timeout".data = false →
        generateAIResponse complete apiKeyOk userPhone ragThrew embedOut
          clientOk searchOk store score prompt = genericErrorReply))) ∧
    timeoutReply ≠ genericErrorReply := by
  refine ⟨?_, ?_, by decide⟩
  · unfold generateAIResponse
    by_cases hk : apiKeyOk = false
    · rw [if_pos hk]; decide
    · rw [if_neg hk]
      cases hc : complete (finalPromptOf userPhone ragThrew embedOut clientOk
          searchOk store score prompt) with
      | err msg =>
        dsimp only
        by_cases ht : jsIncludes msg.data "Timeout".data
        · rw [if_pos ht]; decide
        · rw [if_neg ht]; decide
      | ok text =>
        dsimp only
        by_cases he : text = "" ∨ jsTrim text.data = []
        · rw [if_pos he]; decide
        · rw [if_neg he]
          by_cases hl : 1500 < text.length
          · rw [if_pos hl]
            intro habs
            have hlen := congrArg String.length habs
            rw [string_length_mk_append, List.length_take] at hlen
            have h3 : ("..." : String).length = 3 := rfl
            have h0 : ("" : String).length = 0 := rfl
            have hdl : text.data.length = text.length := rfl
            omega
          · rw [if_neg hl]
            intro habs
            exact (not_or.mp he).1 habs
  · intro msg hk hc
    unfold generateAIResponse
    rw [if_neg (by rw [hk]; simp), hc]
    constructor
    · intro ht
      dsimp only
      rw [if_pos ht]
    · intro ht
      dsimp only
      rw [if_neg (by rw [ht]; simp)]

/-- Witness for C8 at a concrete input: the 30s timer rejection produces
the "took too long" apology. -/
theorem generateAIResponse_error_handling_witness :
    generateAIResponse (fun _ => .err "Timeout nella chiamata a Gemini API")
      true none false none true true [] (fun _ _ => 0) "ciao" = timeoutReply :=
  ((generateAIResponse_error_handling
      (fun _ => .err "Timeout nella chiamata a Gemini API")
      true none false none true true [] (fun _ _ => 0) "ciao").2.1
    "Timeout nella chiamata a Gemini API" rfl rfl).1 (by decide)

/-- C9: post-processing of the completion text.  A whitespace-only (or
empty) completion is replaced by the fixed fallback string; a completion
longer than 1500 characters is returned as exactly its first 1500
characters followed by the fixed `"..."` marker — a string of exactly 1503
characters, never longer; any other completion is returned unchanged. -/
theorem generateAIResponse_postprocessing (complete : String → GeminiOutcome)
    (apiKeyOk : Bool) (userPhone : Option String) (ragThrew : Bool)
    (embedOut : Option (List ℚ)) (clientOk searchOk : Bool)
    (store : List QPoint) (score : List ℚ → List ℚ → ℚ) (prompt : String)
    (text : String) (hk : apiKeyOk = true)
    (hc : complete (finalPromptOf userPhone ragThrew embedOut clientOk
      searchOk store score prompt) = .ok text) :
    (jsTrim text.data = [] →
      generateAIResponse complete apiKeyOk userPhone ragThrew embedOut
        clientOk searchOk store score prompt = emptyReplyFallback) ∧
    (jsTrim text.data ≠ [] → 1500 < text.length →
      generateAIResponse complete apiKeyOk userPhone ragThrew embedOut
          clientOk searchOk store score prompt =
        String.mk (text.data.take 1500) ++ "..." ∧
      (generateAIResponse complete apiKeyOk userPhone ragThrew embedOut
        clientOk searchOk store score prompt).length = 1503) ∧
    (jsTrim text.data ≠ [] → text.length ≤ 1500 →
      generateAIResponse complete apiKeyOk userPhone ragThrew embedOut
        clientOk searchOk store score prompt = text) := by
  unfold generateAIResponse
  rw [if_neg (by rw [hk]; simp), hc]
  dsimp only
  refine ⟨?_, ?_, ?_⟩
  · intro he
    rw [if_pos (Or.inr he)]
  · intro he hl
    have hne : ¬(text = "" ∨ jsTrim text.data = []) := by
      rintro (h | h)
      · subst h; exact he rfl
      · exact he h
    rw [if_neg hne, if_pos hl]
    refine ⟨rfl, ?_⟩
    rw [string_length_mk_append, List.length_take]
    have h3 : ("..." : String).length = 3 := rfl
    have hdl : text.data.length = text.length := rfl
    omega
  · intro he hl
    have hne : ¬(text = "" ∨ jsTrim text.data = []) := by
      rintro (h | h)
      · subst h; exact he rfl
      · exact he h
    rw [if_neg hne, if_neg (by omega)]

/-- Witness for C9 at a concrete input: a 1501-character completion is
truncated to exactly 1500 characters plus the marker. -/
theorem generateAIResponse_postprocessing_witness :
    generateAIResponse (fun _ => .ok (String.mk (List.replicate 1501 'a')))
        true none false none true true [] (fun _ _ => 0) "ciao" =
      String.mk ((List.replicate 1501 'a').take 1500) ++ "..." ∧
    (generateAIResponse (fun _ => .ok (String.mk (List.replicate 1501 'a')))
        true none false none true true [] (fun _ _ => 0) "ciao").length = 1503 :=
  (generateAIResponse_postprocessing
      (fun _ => .ok (String.mk (List.replicate 1501 'a')))
      true none false none true true [] (fun _ _ => 0) "ciao"
      (String.mk (List.replicate 1501 'a')) rfl rfl).2.1
    (by decide) (by decide)

/-! ### Conversation store and lifecycle (`src/src/backend/server.mjs`)

The in-memory `conversations` object is modelled as an association list
behaving as a finite map; timestamps are `Nat` milliseconds (the source
stores ISO strings and compares their `getTime()` values).  The embedded
operations are the inbound-webhook append (lines 295-333), the inactivity
sweep `handleUserInactivity` (lines 184-205) — which sends the warning,
sets `inactivityMessageSent` and schedules `sendClosingMessage` via a
one-shot `setTimeout(inactivityLimit)` — and `sendClosingMessage`
(lines 241-266) together with `closeConversation` (lines 272-276). -/

/-- Message direction (`"received"` / `"sent"`). -/
inductive MsgDirection where
  | received
  | sent
deriving DecidableEq

/-- One message of a conversation. -/
structure ChatMessage where
  direction : MsgDirection
  content : String
  timestamp : Nat
  automatic : Bool
deriving DecidableEq

/-- One conversation record. -/
structure Conversation where
  phone : String
  messages : List ChatMessage
  lastActivity : Nat
  inactivityMessageSent : Bool
  closed : Bool
  closedAt : Option Nat
deriving DecidableEq

/-- `conversations[key]`. -/
def lookupConv (t : List (String × Conversation)) (k : String) :
    Option Conversation :=
  (t.find? (fun p => p.1 == k)).map (fun p => p.2)

/-- `conversations[key] = c`: finite-map update (lookup-equivalent to the
JS object assignment). -/
def setConv (t : List (String × Conversation)) (k : String)
    (c : Conversation) : List (String × Conversation) :=
  (k, c) :: t.filter (fun p => p.1 != k)

/-- `inactivityLimit` (`server.mjs` line 185): 15 minutes. -/
def inactivityLimit : Nat := 15 * 60 * 1000

/-- The fixed idle warning (`server.mjs` lines 212-213). -/
def automaticMessageText : String :=
  "Non scrivi da un po\x27. Se hai bisogno di assistenza, sono qui per aiutarti!"

/-- The fixed closing notice (`server.mjs` lines 242-243). -/
def closingMessageText : String :=
  "La conversazione è stata chiusa per inattività. Se hai bisogno, non esitare a ricontattarmi 😄"

/-- The webhook inbound-message handler (`server.mjs` lines 295-333):
ignore empty texts; create the conversation on first contact; append the
received message; set `lastActivity` to now and reset
`inactivityMessageSent` and `closed` to false. -/
def webhookInbound (t : List (String × Conversation))
    (userPhone messageText : String) (now : Nat) :
    List (String × Conversation) :=
  if messageText = "" then t
  else
    match lookupConv t userPhone with
    | none =>
      setConv t userPhone
        { phone := userPhone
          messages := [⟨MsgDirection.received, messageText, now, false⟩]
          lastActivity := now
          inactivityMessageSent := false
          closed := false
          closedAt := none }
    | some c =>
      setConv t userPhone
        { c with
          messages := c.messages ++ [⟨MsgDirection.received, messageText, now, false⟩]
          lastActivity := now
          inactivityMessageSent := false
          closed := false }

/-- One conversation's treatment by the sweep (`server.mjs` lines 188-204):
when idle for at least `inactivityLimit`, not yet warned and not closed,
append the automatic warning (the effect of `sendAutomaticMessage`), set
`inactivityMessageSent`, and schedule `sendClosingMessage` for
`now + inactivityLimit` (the `setTimeout` at lines 200-202). -/
def sweepEntry (now : Nat) (p : String × Conversation) :
    (String × Conversation) × List (String × Nat) :=
  if (now : Int) - (p.2.lastActivity : Int) ≥ (inactivityLimit : Int) ∧
      p.2.inactivityMessageSent = false ∧ p.2.closed = false then
    ((p.1,
      { p.2 with
        messages := p.2.messages ++ [⟨MsgDirection.sent, automaticMessageText, now, true⟩]
        inactivityMessageSent := true }),
      [(p.1, now + inactivityLimit)])
  else (p, [])

/-- `handleUserInactivity` (`server.mjs` lines 184-205): sweep every
conversation, returning the updated table and the list of scheduled
one-shot close actions `(phone, fire time)`. -/
def handleUserInactivity (t : List (String × Conversation)) (now : Nat) :
    List (String × Conversation) × List (String × Nat) :=
  (t.map (fun p => (sweepEntry now p).1),
    (t.map (fun p => (sweepEntry now p).2)).flatten)

/-- `sendClosingMessage` (`server.mjs` lines 241-266) followed by
`closeConversation` (lines 272-276): append the automatic closing notice
(creating a bare record if the conversation is absent, as lines 250-252
do), then mark the conversation closed with `closedAt`.  The source
performs no re-validation of the conversation's state before doing so. -/
def sendClosingMessage (t : List (String × Conversation)) (from_ : String)
    (now : Nat) : List (String × Conversation) :=
  match lookupConv t from_ with
  | none =>
    setConv t from_
      { phone := from_
        messages := [⟨MsgDirection.sent, closingMessageText, now, true⟩]
        lastActivity := 0
        inactivityMessageSent := false
        closed := true
        closedAt := some now }
  | some c =>
    setConv t from_
      { c with
        messages := c.messages ++ [⟨MsgDirection.sent, closingMessageText, now, true⟩]
        closed := true
        closedAt := some now }

theorem lookupConv_setConv (t : List (String × Conversation)) (k : String)
    (c : Conversation) : lookupConv (setConv t k c) k = some c := by
  unfold lookupConv setConv
  rw [List.find?_cons_of_pos _ (by simp)]
  rfl

/-- C3: conversation invariant on inbound append.  For every table, every
existing conversation and every non-empty inbound text, the webhook append
keeps `lastActivity` non-decreasing (it becomes the current time, which is
at least the previous value whenever the clock has not moved backwards),
resets `inactivityMessageSent` and `closed` to false (returning the
conversation to Active from any prior state), and appends exactly the
received message. -/
theorem webhookInbound_reactivates (t : List (String × Conversation))
    (phone messageText : String) (now : Nat) (c : Conversation)
    (hmsg : messageText ≠ "") (hc : lookupConv t phone = some c)
    (hclock : c.lastActivity ≤ now) :
    ∃ c', lookupConv (webhookInbound t phone messageText now) phone = some c' ∧
      c.lastActivity ≤ c'.lastActivity ∧
      c'.inactivityMessageSent = false ∧
      c'.closed = false ∧
      c'.messages = c.messages ++
        [⟨MsgDirection.received, messageText, now, false⟩] := by
  unfold webhookInbound
  rw [if_neg hmsg, hc]
  exact ⟨_, lookupConv_setConv t phone _, hclock, rfl, rfl, rfl⟩

/-- Witness for C3 at a concrete input: an idle-warned, closed conversation
is reactivated by an inbound message. -/
theorem webhookInbound_reactivates_witness :
    (lookupConv (webhookInbound
        [("A", ⟨"A", [], 5, true, true, some 6⟩)] "A" "ciao" 10) "A").map
      (fun c => (c.inactivityMessageSent, c.closed)) = some (false, false) := by
  obtain ⟨c', h1, _, h3, h4, _⟩ := webhookInbound_reactivates
    [("A", ⟨"A", [], 5, true, true, some 6⟩)] "A" "ciao" 10
    ⟨"A", [], 5, true, true, some 6⟩ (by decide) rfl (by decide)
  rw [h1]
  simp [h3, h4]

/-- C2 counterexample: the one-shot close action does not re-validate.  A
conversation idle since time 0 is warned by the sweep at t = 900000 (15
minutes), which schedules the close for t = 1800000; an inbound message at
t = 1200000 re-activates the conversation (both flags false); yet when the
scheduled `sendClosingMessage` fires at t = 1800000 it closes the
conversation and appends the closing notice anyway — a closing notice sent
to a conversation that received an inbound message after the warning. -/
theorem sendClosingMessage_stale_close_counterexample :
    (handleUserInactivity [("A", ⟨"A", [], 0, false, false, none⟩)] 900000).2 =
      [("A", 1800000)] ∧
    ((lookupConv (handleUserInactivity
        [("A", ⟨"A", [], 0, false, false, none⟩)] 900000).1 "A").map
      (fun c => c.inactivityMessageSent) = some true) ∧
    ((lookupConv (webhookInbound (handleUserInactivity
        [("A", ⟨"A", [], 0, false, false, none⟩)] 900000).1 "A" "ciao"
        1200000) "A").map (fun c => (c.inactivityMessageSent, c.closed)) =
      some (false, false)) ∧
    ((lookupConv (sendClosingMessage (webhookInbound (handleUserInactivity
        [("A", ⟨"A", [], 0, false, false, none⟩)] 900000).1 "A" "ciao"
        1200000) "A" 1800000) "A").map
      (fun c => (c.closed, c.messages.getLast?.map
        (fun m => (m.content, m.automatic)))) =
      some (true, some (closingMessageText, true))) := by
  decide

/-- C2 amended: the close action scheduled by the sweep fires exactly
`inactivityLimit` after the warning, and when it fires it unconditionally
sends the closing notice and marks the conversation closed — it performs no
re-validation, so a conversation re-activated by an inbound message after
the warning is still closed. -/
theorem sendClosingMessage_unconditional (t : List (String × Conversation))
    (phone : String) (warnTime closeTime : Nat) (c : Conversation)
    (hc : lookupConv t phone = some c) :
    ((warnTime : Int) - (c.lastActivity : Int) ≥ (inactivityLimit : Int) →
      c.inactivityMessageSent = false → c.closed = false →
      (phone, warnTime + inactivityLimit) ∈
        (handleUserInactivity t warnTime).2) ∧
    (∃ c', lookupConv (sendClosingMessage t phone closeTime) phone = some c' ∧
      c'.closed = true ∧ c'.closedAt = some closeTime ∧
      c'.messages = c.messages ++
        [⟨MsgDirection.sent, closingMessageText, closeTime, true⟩]) := by
  constructor
  · intro h1 h2 h3
    unfold handleUserInactivity
    rw [List.mem_flatten]
    refine ⟨(sweepEntry warnTime (phone, c)).2, ?_, ?_⟩
    · apply List.mem_map_of_mem
      unfold lookupConv at hc
      cases hfind : t.find? (fun p => p.1 == phone) with
      | none => rw [hfind] at hc; simp at hc
      | some q =>
        rw [hfind] at hc
        have hq2 : q.2 = c := by simpa using hc
        have hq1 : q.1 = phone := by
          have := List.find?_some hfind
          simpa using this
        have hmem := List.mem_of_find?_eq_some hfind
        have : q = (phone, c) := by
          cases q
          simp only at hq1 hq2
          rw [hq1, hq2]
        rw [← this]
        exact hmem
    · unfold sweepEntry
      rw [if_pos ⟨h1, h2, h3⟩]
      simp
  · unfold sendClosingMessage
    rw [hc]
    exact ⟨_, lookupConv_setConv t phone _, rfl, rfl, rfl⟩

/-- Witness for the amended C2 at a concrete input: the warning at
t = 900000 schedules the close at t = 1800000, and the close action marks
the conversation closed. -/
theorem sendClosingMessage_unconditional_witness :
    ("A", 900000 + inactivityLimit) ∈
      (handleUserInactivity [("A", ⟨"A", [], 0, false, false, none⟩)]
        900000).2 ∧
    (lookupConv (sendClosingMessage
        [("A", ⟨"A", [], 0, false, false, none⟩)] "A" 1800000) "A").map
      (fun c => c.closed) = some true := by
  obtain ⟨hsched, c', h1, h2, _, _⟩ := sendClosingMessage_unconditional
    [("A", ⟨"A", [], 0, false, false, none⟩)] "A" 900000 1800000
    ⟨"A", [], 0, false, false, none⟩ rfl
  refine ⟨hsched (by decide) rfl rfl, ?_⟩
  rw [h1]
  simp [h2]
